import Mathlib

/-!
Verification of the SOARA classroom scheduler (src/classroom_scheduler.py).

The Python source is shallowly embedded below: pure functions become Lean
functions, Python dicts become finite maps built by left folds (so that later
writes overwrite earlier ones, as in CPython), Python ints become Int/Nat,
and the external MILP solver is modelled through its contract (a status plus
a variable assignment); the constraint rows built by the optimizer are
modelled as a list of propositions over such an assignment.
-/

namespace Scheduler

/-- Python str.split(sep) for a one-character separator, acting on the list of
characters. Mirrors CPython: splitting the empty string gives one empty part,
consecutive separators give empty parts. -/
def splitOnChar (sep : Char) : List Char → List (List Char)
  | [] => [[]]
  | c :: cs =>
    if c = sep then [] :: splitOnChar sep cs
    else
      match splitOnChar sep cs with
      | [] => [[c]]
      | p :: ps => (c :: p) :: ps

/-- Python substring test (the expression pat in s on strings). -/
def hasSub (pat : List Char) : List Char → Bool
  | [] => pat.isEmpty
  | s@(_ :: t) => pat.isPrefixOf s || hasSub pat t

/-- TimeSlotManager.DAY_TO_BASE_INDEX (lines 53-56): dict from day label to
base slot offset, modelled as a partial map. -/
def DAY_TO_BASE_INDEX (day : String) : Option Nat :=
  if day = "Segunda" then some 0
  else if day = "Terça" then some 8
  else if day = "Quarta" then some 16
  else if day = "Quinta" then some 24
  else if day = "Sexta" then some 32
  else if day = "Sábado" then some 40
  else none

/-- TimeSlotManager.TIME_TO_INDEX (lines 58-61). -/
def TIME_TO_INDEX (t : String) : Option Nat :=
  if t = "17h20" then some 0
  else if t = "18h10" then some 1
  else if t = "19h00" then some 2
  else if t = "19h50" then some 3
  else if t = "20h50" then some 4
  else if t = "21h40" then some 5
  else if t = "22h30" then some 6
  else none

/-- TimeSlotManager.create_time_slots (lines 63-77).
Python unpacks time_range.split('-') into exactly two names and raises
ValueError otherwise; that failure is modelled as none. dict.get(k, 0) is
Option.getD. The loop (for i in range(start_idx, start_idx + slots_needed):
if i < 48: ts[i] = 1) over the list [0]*48 is a fold of List.set, which is a
no-op out of range exactly like the guard. -/
def create_time_slots (day : String) (time_range : String) : Option (List Nat) :=
  match splitOnChar '-' time_range.toList with
  | [start_time, _end_time] =>
    let base_idx := (DAY_TO_BASE_INDEX day).getD 0
    let start_idx := base_idx + (TIME_TO_INDEX (String.mk start_time)).getD 0
    let slots_needed := if time_range = "19h00-22h30" then 4 else 2
    some ((List.range' start_idx slots_needed).foldl
      (fun ts i => ts.set i 1) (List.replicate 48 0))
  | _ => none

/-- Course (lines 12-30). time_slots is derived from (day, time) in
__post_init__ and is modelled by Course.time_slots below rather than stored. -/
structure Course where
  name : String
  course_code : String
  day : String
  time : String
  class_size : Int
  requires_lab : Bool
  preferred_floor : Int
  floor_preference_weight : ℚ := 1
  split_authorized : Bool := false
  assigned_professors : List String := []
  is_split : Bool := false
deriving Inhabited, DecidableEq

/-- The occupancy vector computed in Course.__post_init__ (line 28); none
models the ValueError raised there on a malformed time string. -/
def Course.time_slots (c : Course) : Option (List Nat) :=
  create_time_slots c.day c.time

/-- Course.can_be_split (lines 32-38). -/
def Course.can_be_split (c : Course) : Bool :=
  decide (50 < c.class_size) && c.split_authorized &&
    decide (2 ≤ c.assigned_professors.length)

/-- The splitting branch of DataLoader.load_data (lines 107-138): an eligible
record is replaced by its two derived sections, an ineligible one passes
through. Python's floor division by 2 is Int.ediv (they agree for every
dividend when the divisor is positive). The two indexing expressions
assigned_professors[0] and assigned_professors[1] are in bounds whenever
can_be_split holds; getD supplies an irrelevant default outside that guard. -/
def splitCourse (c : Course) : List Course :=
  if c.can_be_split then
    [{ name := c.name ++ " (Turma A)"
       course_code := c.course_code ++ "-A"
       day := c.day
       time := c.time
       class_size := Int.ediv c.class_size 2
       requires_lab := c.requires_lab
       preferred_floor := c.preferred_floor
       floor_preference_weight := c.floor_preference_weight
       split_authorized := true
       assigned_professors := [c.assigned_professors.getD 0 ""]
       is_split := true },
     { name := c.name ++ " (Turma B)"
       course_code := c.course_code ++ "-B"
       day := c.day
       time := c.time
       class_size := c.class_size - Int.ediv c.class_size 2
       requires_lab := c.requires_lab
       preferred_floor := c.preferred_floor
       floor_preference_weight := c.floor_preference_weight
       split_authorized := true
       assigned_professors := [c.assigned_professors.getD 1 ""]
       is_split := true }]
  else [c]

/-- The course list produced by DataLoader.load_data: each ingested record is
passed through the splitting branch in order. -/
def loadCourses (records : List Course) : List Course :=
  records.flatMap splitCourse

/-! ### Facts about the slot encoder -/

theorem splitOnChar_ne_nil (sep : Char) (l : List Char) : splitOnChar sep l ≠ [] := by
  cases l with
  | nil => simp [splitOnChar]
  | cons c cs =>
    unfold splitOnChar
    split
    · simp
    · split <;> simp

theorem length_splitOnChar (sep : Char) (l : List Char) :
    (splitOnChar sep l).length = l.count sep + 1 := by
  induction l with
  | nil => simp [splitOnChar]
  | cons c cs ih =>
    unfold splitOnChar
    by_cases h : c = sep
    · simp [h, ih, List.count_cons]
    · simp only [h, if_false]
      split
      · exact absurd (by assumption) (splitOnChar_ne_nil sep cs)
      · rename_i p ps hps
        have : (p :: ps).length = cs.count sep + 1 := hps ▸ ih
        simp only [List.length_cons] at this ⊢
        simp [List.count_cons, h, this]

theorem foldl_set_length (idxs : List Nat) (l : List Nat) :
    (idxs.foldl (fun ts i => ts.set i 1) l).length = l.length := by
  induction idxs generalizing l with
  | nil => rfl
  | cons i idxs ih => simp [ih, List.length_set]

theorem foldl_set_getElem? (idxs : List Nat) (l : List Nat) (j : Nat) :
    (idxs.foldl (fun ts i => ts.set i 1) l)[j]? =
      if j ∈ idxs ∧ j < l.length then some 1 else l[j]? := by
  induction idxs generalizing l with
  | nil => simp
  | cons i idxs ih =>
    simp only [List.foldl_cons]
    rw [ih]
    simp only [List.length_set, List.mem_cons]
    by_cases hl : j < l.length
    · by_cases hm : j ∈ idxs
      · simp [hm, hl]
      · by_cases hij : i = j
        · subst hij
          simp [hm, hl, List.getElem?_set]
        · simp [hm, hl, hij, Ne.symm hij, List.getElem?_set]
    · have hnone : l[j]? = none := List.getElem?_eq_none (Nat.le_of_not_lt hl)
      have hnone2 : (l.set i 1)[j]? = none := by
        rw [List.getElem?_set]
        by_cases hij : i = j
        · subst hij
          simp [hl]
        · simp [hij, hnone]
      simp [hl, hnone, hnone2]

theorem foldl_set_range'_eq (a n L : Nat) :
    (List.range' a n).foldl (fun ts i => ts.set i 1) (List.replicate L 0) =
      (List.range L).map fun j => if a ≤ j ∧ j < a + n then 1 else 0 := by
  apply List.ext_getElem
  · simp [foldl_set_length]
  · intro j h1 h2
    have h1' : j < L := by simpa [foldl_set_length] using h1
    have hq := foldl_set_getElem? (List.range' a n) (List.replicate L 0) j
    rw [List.getElem?_eq_getElem h1] at hq
    simp only [List.length_replicate, List.mem_range'_1, h1', and_true,
      List.getElem?_replicate, if_pos h1'] at hq
    rw [List.getElem_map, List.getElem_range]
    by_cases hw : a ≤ j ∧ j < a + n
    · simp only [hw, and_true, if_pos] at hq ⊢
      exact Option.some.inj hq
    · simp only [hw, if_neg, false_and] at hq ⊢
      exact Option.some.inj hq

theorem count_window (a n L : Nat) :
    (((List.range L).map fun j => if a ≤ j ∧ j < a + n then 1 else 0).count 1) =
      min (a + n) L - min a L := by
  induction L with
  | zero => simp
  | succ L ih =>
    rw [List.range_succ, List.map_append, List.count_append, ih]
    by_cases hL : a ≤ L ∧ L < a + n
    · simp only [List.map_cons, List.map_nil, hL, and_self, if_true,
        List.count_cons, List.count_nil]
      norm_num
      omega
    · simp only [List.map_cons, List.map_nil, hL, if_false,
        List.count_cons, List.count_nil]
      norm_num
      omega

theorem day_base_getD_le (day : String) : (DAY_TO_BASE_INDEX day).getD 0 ≤ 40 := by
  unfold DAY_TO_BASE_INDEX
  split_ifs <;> simp

theorem time_idx_getD_le (t : String) : (TIME_TO_INDEX t).getD 0 ≤ 6 := by
  unfold TIME_TO_INDEX
  split_ifs <;> simp

/-- Master characterization of create_time_slots on a well-shaped time string:
the result is a 48-slot vector that is 1 exactly on the window starting at
base offset + start index, of width 2 (or 4 for the literal evening range),
and the window never overflows the 48 slots. -/
theorem create_time_slots_spec (day tr : String) (s e : List Char)
    (hsplit : splitOnChar '-' tr.toList = [s, e]) :
    ∃ v, create_time_slots day tr = some v ∧ v.length = 48 ∧
      (∀ i, i < 48 → v.getD i 0 =
        if (DAY_TO_BASE_INDEX day).getD 0 + (TIME_TO_INDEX (String.mk s)).getD 0 ≤ i ∧
            i < (DAY_TO_BASE_INDEX day).getD 0 + (TIME_TO_INDEX (String.mk s)).getD 0 +
              (if tr = "19h00-22h30" then 4 else 2) then 1 else 0) ∧
      v.count 1 = (if tr = "19h00-22h30" then 4 else 2) := by
  set a := (DAY_TO_BASE_INDEX day).getD 0 + (TIME_TO_INDEX (String.mk s)).getD 0 with ha
  set n := (if tr = "19h00-22h30" then 4 else 2) with hn
  have hval : create_time_slots day tr =
      some ((List.range' a n).foldl (fun ts i => ts.set i 1) (List.replicate 48 0)) := by
    unfold create_time_slots
    rw [hsplit]
  have hwin : a + n ≤ 48 := by
    have hb := day_base_getD_le day
    have ht := time_idx_getD_le (String.mk s)
    by_cases htr : tr = "19h00-22h30"
    · have hev : splitOnChar '-' ("19h00-22h30").toList =
          ["19h00".toList, "22h30".toList] := by decide
      rw [htr] at hsplit
      rw [hev] at hsplit
      have hs : s = "19h00".toList := by
        injection hsplit with h1 _
        exact h1.symm
      have ht2 : (TIME_TO_INDEX (String.mk s)).getD 0 = 2 := by
        rw [hs]
        decide
      simp only [ha, hn, htr, if_true, ht2]
      omega
    · simp only [hn, htr, if_false]
      omega
  refine ⟨_, hval, ?_, ?_, ?_⟩
  · rw [foldl_set_range'_eq]
    simp
  · intro i hi
    rw [foldl_set_range'_eq]
    rw [List.getD_eq_getElem?_getD, List.getElem?_eq_getElem (by simpa using hi)]
    rw [List.getElem_map, List.getElem_range]
    simp
  · rw [foldl_set_range'_eq, count_window]
    omega

/-- C5: for every recognized day label and time-range string start-end with a
recognized start label, the slot encoder sets exactly 2 contiguous slots
starting at the day base offset plus the start-time index — except that the
literal range 19h00-22h30 sets 4 contiguous slots — and all other indices of
the 48-element vector are 0. -/
theorem c5_recognized_labels (day tr : String) (s e : List Char) (b t : Nat)
    (hsplit : splitOnChar '-' tr.toList = [s, e])
    (hday : DAY_TO_BASE_INDEX day = some b)
    (htime : TIME_TO_INDEX (String.mk s) = some t) :
    ∃ v, create_time_slots day tr = some v ∧ v.length = 48 ∧
      (∀ i, i < 48 → v.getD i 0 =
        if b + t ≤ i ∧ i < b + t + (if tr = "19h00-22h30" then 4 else 2) then 1 else 0) ∧
      v.count 1 = (if tr = "19h00-22h30" then 4 else 2) := by
  have h := create_time_slots_spec day tr s e hsplit
  simp only [hday, htime, Option.getD_some] at h
  exact h

/-- Witness for C5: day Sexta (base 32), range 20h50-21h40 (start index 4):
slots 36 and 37 are set and nothing else. -/
theorem c5_witness :
    ∃ v, create_time_slots "Sexta" "20h50-21h40" = some v ∧ v.length = 48 ∧
      (∀ i, i < 48 → v.getD i 0 = if 36 ≤ i ∧ i < 38 then 1 else 0) ∧
      v.count 1 = 2 := by
  have hne : "20h50-21h40" ≠ "19h00-22h30" := by decide
  obtain ⟨v, h1, h2, h3, h4⟩ := c5_recognized_labels "Sexta" "20h50-21h40"
    "20h50".toList "21h40".toList 32 4 (by decide) (by decide) (by decide)
  refine ⟨v, h1, h2, ?_, ?_⟩
  · intro i hi
    have := h3 i hi
    simpa [hne] using this
  · simpa [hne] using h4

/-- C6: a time-range string of the shape start-end whose day label OR start
label is unrecognized does not fail: each unrecognized component independently
and silently falls back to 0 (base offset 0 for the day, within-day index 0
for the start time, mirroring the two separate dict.get(k, 0) calls), and the
encoder still returns an occupancy vector, a window of the usual width placed
at the sum of the two contributions. -/
theorem c6_unrecognized_fallback (day tr : String) (s e : List Char)
    (hsplit : splitOnChar '-' tr.toList = [s, e])
    (_hfall : DAY_TO_BASE_INDEX day = none ∨ TIME_TO_INDEX (String.mk s) = none) :
    ∃ b t,
      (DAY_TO_BASE_INDEX day = some b ∨
        (DAY_TO_BASE_INDEX day = none ∧ b = 0)) ∧
      (TIME_TO_INDEX (String.mk s) = some t ∨
        (TIME_TO_INDEX (String.mk s) = none ∧ t = 0)) ∧
      ∃ v, create_time_slots day tr = some v ∧ v.length = 48 ∧
        (∀ i, i < 48 → v.getD i 0 =
          if b + t ≤ i ∧ i < b + t + (if tr = "19h00-22h30" then 4 else 2)
          then 1 else 0) ∧
        v.count 1 = (if tr = "19h00-22h30" then 4 else 2) := by
  obtain ⟨v, h1, h2, h3, h4⟩ := create_time_slots_spec day tr s e hsplit
  refine ⟨(DAY_TO_BASE_INDEX day).getD 0, (TIME_TO_INDEX (String.mk s)).getD 0,
    ?_, ?_, v, h1, h2, h3, h4⟩
  · cases hday : DAY_TO_BASE_INDEX day with
    | none => exact Or.inr ⟨rfl, rfl⟩
    | some b => exact Or.inl rfl
  · cases htime : TIME_TO_INDEX (String.mk s) with
    | none => exact Or.inr ⟨rfl, rfl⟩
    | some t => exact Or.inl rfl

/-- Witness for C6, covering both mixed fallback cases: recognized day Sexta
with unrecognized start 99h99 occupies slots 32-33 (base 32 + fallback index
0), and unrecognized day Domingo with recognized start 19h00 occupies slots
2-3 (fallback base 0 + index 2). -/
theorem c6_witness :
    (∃ v, create_time_slots "Sexta" "99h99-11h11" = some v ∧ v.length = 48 ∧
      (∀ i, i < 48 → v.getD i 0 = if 32 ≤ i ∧ i < 34 then 1 else 0)) ∧
    (∃ v, create_time_slots "Domingo" "19h00-20h50" = some v ∧ v.length = 48 ∧
      (∀ i, i < 48 → v.getD i 0 = if 2 ≤ i ∧ i < 4 then 1 else 0)) := by
  constructor
  · obtain ⟨b, t, hb, ht, v, h1, h2, h3, _⟩ :=
      c6_unrecognized_fallback "Sexta" "99h99-11h11" "99h99".toList
        "11h11".toList (by decide) (Or.inr (by decide))
    have hdec : DAY_TO_BASE_INDEX "Sexta" = some 32 := by decide
    have hb' : b = 32 := by
      rcases hb with hb | hb
      · rw [hdec] at hb
        exact (Option.some.inj hb).symm
      · rw [hdec] at hb
        exact absurd hb.1 (by decide)
    have htdec : TIME_TO_INDEX (String.mk "99h99".toList) = none := by decide
    have ht' : t = 0 := by
      rcases ht with ht | ht
      · rw [htdec] at ht
        exact Option.noConfusion ht
      · exact ht.2
    subst hb'
    subst ht'
    have hne : "99h99-11h11" ≠ "19h00-22h30" := by decide
    refine ⟨v, h1, h2, ?_⟩
    intro i hi
    have := h3 i hi
    simpa [hne] using this
  · obtain ⟨b, t, hb, ht, v, h1, h2, h3, _⟩ :=
      c6_unrecognized_fallback "Domingo" "19h00-20h50" "19h00".toList
        "20h50".toList (by decide) (Or.inl (by decide))
    have hdec : DAY_TO_BASE_INDEX "Domingo" = none := by decide
    have hb' : b = 0 := by
      rcases hb with hb | hb
      · rw [hdec] at hb
        exact Option.noConfusion hb
      · exact hb.2
    have htdec : TIME_TO_INDEX (String.mk "19h00".toList) = some 2 := by decide
    have ht' : t = 2 := by
      rcases ht with ht | ht
      · rw [htdec] at ht
        exact (Option.some.inj ht).symm
      · rw [htdec] at ht
        exact absurd ht.1 (by decide)
    subst hb'
    subst ht'
    have hne : "19h00-20h50" ≠ "19h00-22h30" := by decide
    refine ⟨v, h1, h2, ?_⟩
    intro i hi
    have := h3 i hi
    simpa [hne] using this

/-- C7: for every day label (recognized or not) and every time string of the
shape start-end, the occupancy vector has length exactly 48 and exactly 2 set
bits — 4 for the literal 19h00-22h30 — so no set bit is ever lost to clipping:
the largest possible start index is 40 + 6 = 46 for a width-2 window, and the
width-4 window forces start label 19h00, hence start index at most 42. -/
theorem c7_occupancy_invariant (day tr : String) (s e : List Char)
    (hsplit : splitOnChar '-' tr.toList = [s, e]) :
    ∃ v, create_time_slots day tr = some v ∧ v.length = 48 ∧
      v.count 1 = (if tr = "19h00-22h30" then 4 else 2) := by
  obtain ⟨v, h1, h2, _, h4⟩ := create_time_slots_spec day tr s e hsplit
  exact ⟨v, h1, h2, h4⟩

/-- Witness for C7: the double-length evening range on Quarta has exactly 4
set bits. -/
theorem c7_witness :
    ∃ v, create_time_slots "Quarta" "19h00-22h30" = some v ∧ v.length = 48 ∧
      v.count 1 = 4 := by
  obtain ⟨v, h1, h2, h4⟩ := c7_occupancy_invariant "Quarta" "19h00-22h30"
    "19h00".toList "22h30".toList (by decide)
  exact ⟨v, h1, h2, by simpa using h4⟩

/-- C9: the slot encoder is partial on the shape of the time string: when the
string does not contain exactly one dash separator, create_time_slots reports
failure (Python raises ValueError while unpacking the split) instead of
returning a vector, so Course construction fails on such inputs. -/
theorem c9_malformed_time_string (tr : String) (h : tr.toList.count '-' ≠ 1) :
    (∀ day, create_time_slots day tr = none) ∧
      ∀ c : Course, c.time = tr → c.time_slots = none := by
  have hlen : (splitOnChar '-' tr.toList).length ≠ 2 := by
    rw [length_splitOnChar]
    omega
  have hmain : ∀ day, create_time_slots day tr = none := by
    intro day
    unfold create_time_slots
    rcases hsp : splitOnChar '-' tr.toList with _ | ⟨a, tl⟩
    · rfl
    · rcases tl with _ | ⟨b, tl2⟩
      · rfl
      · rcases tl2 with _ | ⟨x, rest⟩
        · exfalso
          rw [hsp] at hlen
          simp at hlen
        · rfl
  refine ⟨hmain, ?_⟩
  intro c hc
  unfold Course.time_slots
  rw [hc]
  exact hmain c.day

/-- Witness for C9: a dashless time string is rejected. -/
theorem c9_witness :
    create_time_slots "Segunda" "19h00" = none ∧ "19h00".toList.count '-' = 0 :=
  ⟨(c9_malformed_time_string "19h00" (by decide)).1 "Segunda", by decide⟩

/-! ### Course splitter (C1) -/

/-- C1: a record with class_size above 50, split authorization, and at least 2
assigned instructors is replaced by exactly two derived sections — A with
floor(size/2) and only the first instructor, B with the remainder and only the
second instructor, both marked split and split-authorized, sizes summing to the
original — while a record failing the eligibility test passes through
unchanged. -/
theorem c1_course_splitter (c : Course) :
    (50 < c.class_size ∧ c.split_authorized = true ∧
        2 ≤ c.assigned_professors.length →
      ∃ a b, splitCourse c = [a, b] ∧
        a.class_size = Int.ediv c.class_size 2 ∧
        b.class_size = c.class_size - Int.ediv c.class_size 2 ∧
        a.class_size + b.class_size = c.class_size ∧
        (∃ p1 p2 rest, c.assigned_professors = p1 :: p2 :: rest ∧
          a.assigned_professors = [p1] ∧ b.assigned_professors = [p2]) ∧
        a.is_split = true ∧ b.is_split = true ∧
        a.split_authorized = true ∧ b.split_authorized = true) ∧
    (¬ (50 < c.class_size ∧ c.split_authorized = true ∧
        2 ≤ c.assigned_professors.length) →
      splitCourse c = [c]) := by
  have hiff : c.can_be_split = true ↔
      (50 < c.class_size ∧ c.split_authorized = true ∧
        2 ≤ c.assigned_professors.length) := by
    unfold Course.can_be_split
    simp [Bool.and_eq_true, decide_eq_true_eq, and_assoc]
  constructor
  · intro h
    have hb : c.can_be_split = true := hiff.mpr h
    obtain ⟨p1, p2, rest, hp⟩ :
        ∃ p1 p2 rest, c.assigned_professors = p1 :: p2 :: rest := by
      rcases hl : c.assigned_professors with _ | ⟨q1, _ | ⟨q2, qs⟩⟩
      · exfalso
        have h2 := h.2.2
        rw [hl] at h2
        simp at h2
      · exfalso
        have h2 := h.2.2
        rw [hl] at h2
        simp at h2
      · exact ⟨q1, q2, qs, rfl⟩
    simp only [splitCourse, hb, if_true]
    refine ⟨_, _, rfl, rfl, rfl, ?_, ⟨p1, p2, rest, hp, ?_, ?_⟩, rfl, rfl, rfl, rfl⟩
    · show Int.ediv c.class_size 2 + (c.class_size - Int.ediv c.class_size 2) =
        c.class_size
      ring
    · show [c.assigned_professors.getD 0 ""] = [p1]
      rw [hp]
      rfl
    · show [c.assigned_professors.getD 1 ""] = [p2]
      rw [hp]
      rfl
  · intro h
    have hb : ¬ (c.can_be_split = true) := fun hb => h (hiff.mp hb)
    unfold splitCourse
    rw [if_neg hb]

/-- An eligible record: size 121, authorized, two instructors. -/
def c1SplitExample : Course :=
  { name := "Calculo", course_code := "MAT101", day := "Segunda",
    time := "17h20-18h10", class_size := 121, requires_lab := false,
    preferred_floor := 1, split_authorized := true,
    assigned_professors := ["Ana", "Bruno"] }

/-- An ineligible record: size 30. -/
def c1PassExample : Course :=
  { name := "Fisica", course_code := "FIS1", day := "Terça",
    time := "18h10-19h00", class_size := 30, requires_lab := true,
    preferred_floor := 0 }

/-- Witness for C1: size 121 splits into 60 + 61; a small course passes
through unchanged. -/
theorem c1_witness :
    (∃ a b, splitCourse c1SplitExample = [a, b] ∧
      a.class_size = 60 ∧ b.class_size = 61 ∧
      a.class_size + b.class_size = c1SplitExample.class_size) ∧
    splitCourse c1PassExample = [c1PassExample] := by
  constructor
  · obtain ⟨a, b, h1, h2, h3, h4, _⟩ :=
      (c1_course_splitter c1SplitExample).1 (by decide)
    refine ⟨a, b, h1, ?_, ?_, h4⟩
    · rw [h2]
      decide
    · rw [h3]
      decide
  · exact (c1_course_splitter c1PassExample).2 (by decide)

/-! ### Floor-match precomputation (C3) -/

/-- The indicator computed for one (room, course) pair inside
ScheduleOptimizer._calculate_floor_matches (lines 171-174). -/
def floorMatchValue (roomFloor : Int) (preferredFloor : Int) : Int :=
  if preferredFloor ≤ 0 then 1
  else if roomFloor = preferredFloor then 1 else 0

/-- One dict write room.floor_matches[course.name] = value (lines 172/174). -/
def fmStep (roomFloor : Int) (m : String → Option Int) (c : Course) :
    String → Option Int :=
  fun n => if n = c.name then some (floorMatchValue roomFloor c.preferred_floor)
           else m n

/-- The floor_matches dict of one room after _calculate_floor_matches ran over
the course list: keyed by course NAME, a later course overwrites an earlier
one with the same name. -/
def floorMatchesMap (roomFloor : Int) (courses : List Course) :
    String → Option Int :=
  courses.foldl (fmStep roomFloor) (fun _ => none)

theorem fmFold_not_mem (roomFloor : Int) (courses : List Course)
    (m : String → Option Int) (n : String) (hn : ∀ c ∈ courses, c.name ≠ n) :
    courses.foldl (fmStep roomFloor) m n = m n := by
  induction courses generalizing m with
  | nil => rfl
  | cons d cs ih =>
    rw [List.foldl_cons, ih _ (fun c hc => hn c (List.mem_cons_of_mem d hc))]
    unfold fmStep
    simp [Ne.symm (hn d (List.mem_cons_self d cs))]

theorem fmFold_lookup (roomFloor : Int) (courses : List Course)
    (m : String → Option Int) (c : Course) (hc : c ∈ courses)
    (hnd : (courses.map (·.name)).Nodup) :
    courses.foldl (fmStep roomFloor) m c.name =
      some (floorMatchValue roomFloor c.preferred_floor) := by
  induction courses generalizing m with
  | nil => cases hc
  | cons d cs ih =>
    rw [List.foldl_cons]
    rw [List.map_cons] at hnd
    have hnd' := List.nodup_cons.mp hnd
    rcases List.mem_cons.mp hc with rfl | hcs
    · have hnot : ∀ x ∈ cs, x.name ≠ c.name := by
        intro x hx he
        exact hnd'.1 (he ▸ List.mem_map_of_mem _ hx)
      rw [fmFold_not_mem _ _ _ _ hnot]
      unfold fmStep
      simp
    · exact ih _ hcs hnd'.2

/-- First course of the C3 counterexample: display name shared with the
second, prefers floor 1. -/
def c3CourseFirst : Course :=
  { name := "Estruturas", course_code := "C1", day := "Segunda",
    time := "17h20-18h10", class_size := 30, requires_lab := false,
    preferred_floor := 1 }

/-- Second course of the C3 counterexample: same display name, prefers
floor 2. -/
def c3CourseSecond : Course :=
  { name := "Estruturas", course_code := "C2", day := "Terça",
    time := "18h10-19h00", class_size := 30, requires_lab := false,
    preferred_floor := 2 }

/-- Counterexample to C3 as stated: the floor-match store is keyed by course
NAME, and a later course with the same display name overwrites an earlier one.
On a room on floor 1, the first course prefers floor 1, so the claimed formula
gives 1; but the stored value was computed from the second course (preferred
floor 2) and is 0. So the stored value is not the claimed pure function of
(room.floor, course.preferred_floor). -/
theorem c3_counterexample :
    floorMatchValue 1 c3CourseFirst.preferred_floor = 1 ∧
    floorMatchesMap 1 [c3CourseFirst, c3CourseSecond] c3CourseFirst.name =
      some 0 ∧
    floorMatchesMap 1 [c3CourseFirst, c3CourseSecond] c3CourseFirst.name ≠
      some (floorMatchValue 1 c3CourseFirst.preferred_floor) :=
  ⟨by decide, by decide, by decide⟩

/-- C3 amended: provided course display names are pairwise distinct, the
stored floor-match value of every (room, course) pair equals 1 when the course
has no floor preference (preferred floor at most 0) or the room is on the
preferred floor, and 0 otherwise; it is then a pure function of
(room.floor, course.preferred_floor): two courses with the same preferred
floor obtain the same value on every room. -/
theorem c3_floor_match_pure (roomFloor : Int) (courses : List Course)
    (hnd : (courses.map (·.name)).Nodup) (c : Course) (hc : c ∈ courses) :
    floorMatchesMap roomFloor courses c.name =
      some (if c.preferred_floor ≤ 0 then 1
            else if roomFloor = c.preferred_floor then 1 else 0) ∧
    ∀ c2 ∈ courses, c2.preferred_floor = c.preferred_floor →
      floorMatchesMap roomFloor courses c2.name =
        floorMatchesMap roomFloor courses c.name := by
  have h1 : floorMatchesMap roomFloor courses c.name =
      some (floorMatchValue roomFloor c.preferred_floor) :=
    fmFold_lookup roomFloor courses _ c hc hnd
  constructor
  · rw [h1]
    rfl
  · intro c2 hc2 hpf
    have h2 : floorMatchesMap roomFloor courses c2.name =
        some (floorMatchValue roomFloor c2.preferred_floor) :=
      fmFold_lookup roomFloor courses _ c2 hc2 hnd
    rw [h1, h2, hpf]

/-- Witness for the amended C3: with a single course preferring floor 1 and a
room on floor 1, the stored value is 1. -/
theorem c3_witness :
    floorMatchesMap 1 [c3CourseFirst] c3CourseFirst.name = some 1 := by
  have h := (c3_floor_match_pure 1 [c3CourseFirst] (by decide)
    c3CourseFirst (by decide)).1
  rw [h]
  decide

/-! ### Constraint model builder (C2, C10) -/

/-- RoomType (lines 8-10). -/
inductive RoomType where
  | lab
  | sala
deriving DecidableEq, Inhabited, BEq

/-- Room (lines 40-50). The floor_matches dict filled by the optimizer is
modelled by floorMatchesMap rather than stored in the record. -/
structure Room where
  name : String
  room_type : RoomType
  capacity : Int
  floor : Int
  is_blocked : Bool := false
deriving Inhabited, DecidableEq

/-- The occupancy vector a constructed Course carries (Python guarantees a
valid 48-slot vector exists, else __post_init__ raised); the default is never
reached for a constructible course. -/
def Course.time_slots48 (c : Course) : List Nat :=
  (create_time_slots c.day c.time).getD (List.replicate 48 0)

/-- One candidate value assignment to the decision variables of
_create_decision_variables (lines 197-233), over the rationals as the MILP
relaxation space; integrality and binarity are imposed by VarDomains. -/
structure ModelVars where
  x : Nat → Nat → ℚ
  y : Nat → ℚ
  z : Nat → Nat → ℚ
  w_lab : Nat → ℚ
  w_sala : Nat → ℚ

/-- The variable categories declared in _create_decision_variables: x binary,
y and z nonnegative integers, w_lab and w_sala binary. -/
def VarDomains (nc nr : Nat) (v : ModelVars) : Prop :=
  (∀ d r, d < nc → r < nr → v.x d r = 0 ∨ v.x d r = 1) ∧
  (∀ d, d < nc → 0 ≤ v.y d ∧ ∃ k : ℤ, v.y d = (k : ℚ)) ∧
  (∀ d r, d < nc → r < nr → 0 ≤ v.z d r ∧ ∃ k : ℤ, v.z d r = (k : ℚ)) ∧
  (∀ d, d < nc → v.w_lab d = 0 ∨ v.w_lab d = 1) ∧
  (∀ d, d < nc → v.w_sala d = 0 ∨ v.w_sala d = 1)

/-- Constraint row: each course assigned to exactly one room (lines 245-248). -/
def completenessCon (rooms : List Room) (v : ModelVars) (d : Nat) : Prop :=
  ((List.range rooms.length).map fun r => v.x d r).sum = 1

/-- Constraint row: no double-booking of room r at slot h (lines 251-256). -/
def timeConflictCon (courses : List Course) (v : ModelVars) (r h : Nat) : Prop :=
  ((List.range courses.length).map fun d =>
    v.x d r * (((courses.getD d default).time_slots48.getD h 0 : ℚ))).sum ≤ 1

/-- Indices of lab rooms (lines 259-260). -/
def labRooms (rooms : List Room) : List Nat :=
  (List.range rooms.length).filter fun r =>
    (rooms.getD r default).room_type == RoomType.lab

/-- Constraint row: lab/classroom mismatch linearization for course d
(lines 262-270). -/
def roomTypeCon (courses : List Course) (rooms : List Room) (v : ModelVars)
    (d : Nat) : Prop :=
  if (courses.getD d default).requires_lab then
    v.w_lab d = 1 - ((labRooms rooms).map fun r => v.x d r).sum
  else
    v.w_sala d = ((labRooms rooms).map fun r => v.x d r).sum

/-- Constraint row: floor-distance slack (lines 273-278). -/
def distanceCon (courses : List Course) (rooms : List Room) (v : ModelVars)
    (d r : Nat) : Prop :=
  v.y d ≥ v.x d r *
    ((|(courses.getD d default).preferred_floor -
        (rooms.getD r default).floor| : ℤ) : ℚ)

/-- Constraint row: capacity-overrun slack (lines 283-286). -/
def capacitySlackCon (courses : List Course) (rooms : List Room) (v : ModelVars)
    (d r : Nat) : Prop :=
  v.z d r ≥ v.x d r *
    (((courses.getD d default).class_size -
        (rooms.getD r default).capacity : ℤ) : ℚ)

/-- Constraint row: hard capacity ceiling with big-M constant 9999
(lines 289-292); Python's float literal 1.2 is modelled as the exact
rational. -/
def capacityCeilingCon (courses : List Course) (rooms : List Room)
    (v : ModelVars) (d r : Nat) : Prop :=
  ((courses.getD d default).class_size : ℚ) ≤
    ((rooms.getD r default).capacity : ℚ) * 1.2 + (1 - v.x d r) * 9999

/-- Indices of blocked rooms (line 294). -/
def blockedRooms (rooms : List Room) : List Nat :=
  (List.range rooms.length).filter fun r => (rooms.getD r default).is_blocked

/-- Constraint row: no course in blocked room r (lines 295-298). -/
def blockedCon (courses : List Course) (v : ModelVars) (r : Nat) : Prop :=
  ((List.range courses.length).map fun d => v.x d r).sum = 0

/-- The constraint list built by _create_constraints (lines 235-300), in
source order: completeness, time conflicts, room types, distances, then the
interleaved capacity-slack/capacity-ceiling pairs, then blocked rooms. -/
def createConstraints (courses : List Course) (rooms : List Room)
    (v : ModelVars) : List Prop :=
  ((List.range courses.length).map fun d => completenessCon rooms v d)
  ++ ((List.range rooms.length).flatMap fun r =>
        (List.range 48).map fun h => timeConflictCon courses v r h)
  ++ ((List.range courses.length).map fun d => roomTypeCon courses rooms v d)
  ++ ((List.range courses.length).flatMap fun d =>
        (List.range rooms.length).map fun r => distanceCon courses rooms v d r)
  ++ ((List.range courses.length).flatMap fun d =>
        (List.range rooms.length).flatMap fun r =>
          [capacitySlackCon courses rooms v d r,
           capacityCeilingCon courses rooms v d r])
  ++ ((blockedRooms rooms).map fun r => blockedCon courses v r)

/-- A variable assignment satisfies the built model: it respects the declared
variable domains and every constraint row. -/
def Satisfies (courses : List Course) (rooms : List Room) (v : ModelVars) :
    Prop :=
  VarDomains courses.length rooms.length v ∧
    ∀ p ∈ createConstraints courses rooms v, p

theorem completenessCon_mem (courses : List Course) (rooms : List Room)
    (v : ModelVars) (d : Nat) (hd : d < courses.length) :
    completenessCon rooms v d ∈ createConstraints courses rooms v := by
  unfold createConstraints
  refine List.mem_append_left _ (List.mem_append_left _ (List.mem_append_left _
    (List.mem_append_left _ (List.mem_append_left _ ?_))))
  exact List.mem_map_of_mem _ (List.mem_range.mpr hd)

theorem capacityCeilingCon_mem (courses : List Course) (rooms : List Room)
    (v : ModelVars) (d r : Nat) (hd : d < courses.length)
    (hr : r < rooms.length) :
    capacityCeilingCon courses rooms v d r ∈ createConstraints courses rooms v := by
  unfold createConstraints
  refine List.mem_append_left _ (List.mem_append_right _ ?_)
  refine List.mem_flatMap.mpr ⟨d, List.mem_range.mpr hd, ?_⟩
  refine List.mem_flatMap.mpr ⟨r, List.mem_range.mpr hr, ?_⟩
  simp

theorem distanceCon_mem (courses : List Course) (rooms : List Room)
    (v : ModelVars) (d r : Nat) (hd : d < courses.length)
    (hr : r < rooms.length) :
    distanceCon courses rooms v d r ∈ createConstraints courses rooms v := by
  unfold createConstraints
  refine List.mem_append_left _ (List.mem_append_left _
    (List.mem_append_right _ ?_))
  refine List.mem_flatMap.mpr ⟨d, List.mem_range.mpr hd, ?_⟩
  exact List.mem_map_of_mem _ (List.mem_range.mpr hr)

/-- A satisfying assignment places every course in some room (completeness
plus binarity). -/
theorem satisfies_assigned (courses : List Course) (rooms : List Room)
    (v : ModelVars) (hs : Satisfies courses rooms v) (d : Nat)
    (hd : d < courses.length) :
    ∃ r, r < rooms.length ∧ v.x d r = 1 := by
  have hcomp : completenessCon rooms v d :=
    hs.2 _ (completenessCon_mem courses rooms v d hd)
  unfold completenessCon at hcomp
  by_contra hno
  push_neg at hno
  have hzero : ((List.range rooms.length).map fun r => v.x d r).sum = 0 := by
    apply List.sum_eq_zero
    intro q hq
    obtain ⟨r, hr, rfl⟩ := List.mem_map.mp hq
    have hrlt := List.mem_range.mp hr
    rcases hs.1.1 d r hd hrlt with h0 | h1
    · exact h0
    · exact absurd h1 (hno r hrlt)
  rw [hzero] at hcomp
  exact one_ne_zero hcomp.symm

/-- C2: the built model contains, for every course d and room r, the hard
capacity-ceiling row size(d) ≤ capacity(r)·1.2 + (1 − x[d,r])·9999 as well as
the completeness row Σ_r x[d,r] = 1; consequently, a course whose size
exceeds 1.2 times the capacity of every room leaves no satisfying assignment:
the model is infeasible. -/
theorem c2_capacity_ceiling (courses : List Course) (rooms : List Room) :
    (∀ v : ModelVars, ∀ d r, d < courses.length → r < rooms.length →
      capacityCeilingCon courses rooms v d r ∈ createConstraints courses rooms v ∧
      completenessCon rooms v d ∈ createConstraints courses rooms v) ∧
    (∀ d, d < courses.length →
      (∀ r, r < rooms.length →
        ((rooms.getD r default).capacity : ℚ) * 1.2 <
          ((courses.getD d default).class_size : ℚ)) →
      ¬ ∃ v : ModelVars, Satisfies courses rooms v) := by
  constructor
  · intro v d r hd hr
    exact ⟨capacityCeilingCon_mem courses rooms v d r hd hr,
      completenessCon_mem courses rooms v d hd⟩
  · rintro d hd hbig ⟨v, hs⟩
    obtain ⟨r, hr, hx1⟩ := satisfies_assigned courses rooms v hs d hd
    have hceil : capacityCeilingCon courses rooms v d r :=
      hs.2 _ (capacityCeilingCon_mem courses rooms v d r hd hr)
    unfold capacityCeilingCon at hceil
    rw [hx1] at hceil
    have hb := hbig r hr
    nlinarith [hceil, hb]

/-- The size-70 course of the C2 witness. -/
def c2Course70 : Course :=
  { name := "Redes", course_code := "RED1", day := "Segunda",
    time := "17h20-18h10", class_size := 70, requires_lab := false,
    preferred_floor := 1 }

/-- The single capacity-50 room of the C2 witness. -/
def c2Room50 : Room :=
  { name := "S101", room_type := RoomType.sala, capacity := 50, floor := 1 }

/-- Witness for C2: size 70 with only a capacity-50 room (70 > 50·1.2 = 60)
admits no satisfying assignment. -/
theorem c2_witness : ¬ ∃ v : ModelVars, Satisfies [c2Course70] [c2Room50] v := by
  refine (c2_capacity_ceiling [c2Course70] [c2Room50]).2 0 (by decide) ?_
  intro r hr
  simp only [List.length_singleton] at hr
  have hr0 : r = 0 := by omega
  subst hr0
  show (((([c2Room50].getD 0 default).capacity : ℚ)) * 1.2 <
    (([c2Course70].getD 0 default).class_size : ℚ))
  norm_num [c2Room50, c2Course70]

/-- C10: distance rows are added for every (course, room) pair without
exempting no-preference courses: for a course with preferred_floor ≤ 0 the
model still contains y[d] ≥ x[d,r]·|preferred_floor − floor(r)|, so any
satisfying assignment choosing room r forces the slack y[d] to be at least
that distance — even though the floor-match indicator computed for such a
course is 1, so the floor-preference objective term charges it nothing. -/
theorem c10_distance_for_no_preference (courses : List Course)
    (rooms : List Room) (d r : Nat) (hd : d < courses.length)
    (hr : r < rooms.length)
    (hpf : (courses.getD d default).preferred_floor ≤ 0) :
    (∀ v : ModelVars,
      distanceCon courses rooms v d r ∈ createConstraints courses rooms v) ∧
    (∀ v : ModelVars, Satisfies courses rooms v → v.x d r = 1 →
      ((|(courses.getD d default).preferred_floor -
          (rooms.getD r default).floor| : ℤ) : ℚ) ≤ v.y d) ∧
    floorMatchValue (rooms.getD r default).floor
      (courses.getD d default).preferred_floor = 1 := by
  refine ⟨fun v => distanceCon_mem courses rooms v d r hd hr, ?_, ?_⟩
  · intro v hs hx1
    have hdist : distanceCon courses rooms v d r :=
      hs.2 _ (distanceCon_mem courses rooms v d r hd hr)
    unfold distanceCon at hdist
    rw [hx1, one_mul] at hdist
    exact hdist
  · unfold floorMatchValue
    rw [if_pos hpf]

/-- The no-preference course of the C10 witness. -/
def c10Course : Course :=
  { name := "Logica", course_code := "LOG1", day := "Quinta",
    time := "19h50-20h50", class_size := 40, requires_lab := false,
    preferred_floor := 0 }

/-- The floor-3 room of the C10 witness. -/
def c10Room : Room :=
  { name := "S301", room_type := RoomType.sala, capacity := 50, floor := 3 }

/-- Witness for C10: a preferred floor of 0 (no preference) still counts as
floor-matched. -/
theorem c10_witness :
    floorMatchValue ([c10Room].getD 0 default).floor
      ([c10Course].getD 0 default).preferred_floor = 1 :=
  (c10_distance_for_no_preference [c10Course] [c10Room] 0 0 (by decide)
    (by decide) (by decide)).2.2

/-! ### Result extractor (C4) and split-class analysis (C8) -/

/-- The solver statuses of the external MILP contract (PuLP LpStatus). -/
inductive SolverStatus where
  | optimal
  | infeasible
  | unbounded
  | notSolved
deriving DecidableEq, Inhabited

/-- One schedule row emitted by _format_results (lines 328-357). The room type
column stores the enum (the DataFrame stores its uppercased string value,
a bijective rendering); the occupancy-percentage column, a rounded float used
only for display, is not modelled — no verified property reads it. -/
structure ScheduleRow where
  curso : String
  disciplina : String
  sala : String
  dia : String
  horario : String
  andar : Int
  tipoSala : RoomType
  andarPreferido : Int
  floorMatch : Int
  tamanhoTurma : Int
  capacidadeSala : Int
  requerLab : Bool
  mismatch : Bool
deriving DecidableEq, Inhabited

/-- ScheduleOptimizer._format_results (lines 328-357): for each course d and
room r with solved x[d,r] = 1, emit a row. The solved variable values are the
function sol. -/
def formatResults (courses : List Course) (rooms : List Room)
    (sol : Nat → Nat → ℚ) : List ScheduleRow :=
  (List.range courses.length).flatMap fun d =>
    (List.range rooms.length).filterMap fun r =>
      if sol d r = 1 then
        some { curso := (courses.getD d default).course_code
               disciplina := (courses.getD d default).name
               sala := (rooms.getD r default).name
               dia := (courses.getD d default).day
               horario := (courses.getD d default).time
               andar := (rooms.getD r default).floor
               tipoSala := (rooms.getD r default).room_type
               andarPreferido := (courses.getD d default).preferred_floor
               floorMatch := (floorMatchesMap (rooms.getD r default).floor
                 courses (courses.getD d default).name).getD 0
               tamanhoTurma := (courses.getD d default).class_size
               capacidadeSala := (rooms.getD r default).capacity
               requerLab := (courses.getD d default).requires_lab
               mismatch := ((courses.getD d default).requires_lab &&
                   !((rooms.getD r default).room_type == RoomType.lab)) ||
                 (!(courses.getD d default).requires_lab &&
                   ((rooms.getD r default).room_type == RoomType.lab)) }
      else none

/-- ScheduleOptimizer.optimize (lines 176-182): the solver is an external
collaborator returning a status and variable values; rows are formatted only
on optimal status, otherwise the empty result stands in for the empty
DataFrame. -/
def optimize (courses : List Course) (rooms : List Room)
    (status : SolverStatus) (sol : Nat → Nat → ℚ) : List ScheduleRow :=
  if status = SolverStatus.optimal then formatResults courses rooms sol
  else []

/-- C4: on any non-optimal solver status the optimize operation returns the
empty result — no partial or best-effort rows — and on optimal status it
returns exactly the formatted rows. -/
theorem c4_non_optimal_empty (courses : List Course) (rooms : List Room)
    (status : SolverStatus) (sol : Nat → Nat → ℚ) :
    (status ≠ SolverStatus.optimal →
      optimize courses rooms status sol = []) ∧
    (status = SolverStatus.optimal →
      optimize courses rooms status sol = formatResults courses rooms sol) := by
  constructor
  · intro h
    unfold optimize
    rw [if_neg h]
  · intro h
    unfold optimize
    rw [if_pos h]

/-- Witness for C4: an infeasible status yields the empty result even when a
variable assignment would produce rows. -/
theorem c4_witness :
    optimize [c2Course70] [c2Room50] SolverStatus.infeasible
      (fun _ _ => 1) = [] :=
  (c4_non_optimal_empty [c2Course70] [c2Room50] SolverStatus.infeasible
    (fun _ _ => 1)).1 (by decide)

/-- Python course_code.split('-')[0]: the part of the code before the first
dash (line 381/384). -/
def baseCode (code : String) : String :=
  String.mk ((splitOnChar '-' code.toList).headD [])

/-- The original_courses dict of _analyze_split_classes (line 381): keyed by
the base of each course code, later courses overwrite earlier ones. Because
the list it receives is the post-split output of load_data, a split course is
present only through its derived sections. -/
def originalCourses (courses : List Course) : String → Option Course :=
  courses.foldl
    (fun m c => fun n => if n = baseCode c.course_code then some c else m n)
    (fun _ => none)

/-- pandas Series.unique: first-occurrence-order deduplication (line 383). -/
def uniqueFirst (l : List String) : List String :=
  l.foldl (fun acc x => if x ∈ acc then acc else acc ++ [x]) []

/-- One reported section row (line 392): course code, room, size, time. -/
structure SplitSectionRow where
  curso : String
  sala : String
  tamanhoTurma : Int
  horario : String
deriving DecidableEq, Inhabited

/-- One split-class report entry (lines 388-394). -/
structure SplitClassInfo where
  original_course : String
  original_size : Int
  split_sections : List SplitSectionRow
deriving DecidableEq, Inhabited

/-- ScheduleAnalyzer._analyze_split_classes (lines 375-396). -/
def analyzeSplitClasses (schedule : List ScheduleRow)
    (courses : List Course) : List SplitClassInfo :=
  let originals := originalCourses courses
  (uniqueFirst (schedule.map (·.curso))).filterMap fun code =>
    if hasSub "-A".toList code.toList || hasSub "-B".toList code.toList then
      match originals (baseCode code) with
      | some oc =>
          some { original_course := baseCode code
                 original_size := oc.class_size
                 split_sections :=
                   (schedule.filter fun row =>
                     (baseCode code).toList.isPrefixOf row.curso.toList).map
                     fun row => { curso := row.curso, sala := row.sala,
                                  tamanhoTurma := row.tamanhoTurma,
                                  horario := row.horario } }
      | none => none
    else none

/-- The oversized raw record of the C8 run: size 120, authorized, two
instructors; load_data replaces it by sections MAT200-A and MAT200-B of size
60 each. -/
def c8RawCourse : Course :=
  { name := "Algoritmos", course_code := "MAT200", day := "Segunda",
    time := "17h20-18h10", class_size := 120, requires_lab := false,
    preferred_floor := 1, split_authorized := true,
    assigned_professors := ["Ana", "Bruno"] }

/-- Two rooms so both sections can be placed. -/
def c8Rooms : List Room :=
  [{ name := "S101", room_type := RoomType.sala, capacity := 70, floor := 1 },
   { name := "S102", room_type := RoomType.sala, capacity := 70, floor := 1 }]

/-- The solved assignment of the C8 run: section d in room d. -/
def c8Sol : Nat → Nat → ℚ := fun d r => if d = r then 1 else 0

/-- C8 exhibits a defect: the claim (and spec §4.6) say each split-class
report entry carries the ORIGINAL pre-split course's size as original_size.
But analyze_schedule receives the post-split course list, in which the
original record was already replaced by its two sections, so the
original_courses dict maps the base code MAT200 to the LAST derived section
(size 60), and the run reports original_size = 60 — not the original 120.
One entry is also emitted per suffixed section code, duplicating the report. -/
theorem c8_original_size_bug :
    ((analyzeSplitClasses
        (formatResults (loadCourses [c8RawCourse]) c8Rooms c8Sol)
        (loadCourses [c8RawCourse])).map (·.original_size) = [60, 60]) ∧
    c8RawCourse.class_size = 120 ∧
    ((loadCourses [c8RawCourse]).map (·.course_code) = ["MAT200-A", "MAT200-B"]) ∧
    ((loadCourses [c8RawCourse]).map (·.class_size) = [60, 60]) := by
  refine ⟨by decide, by decide, by decide, by decide⟩

end Scheduler
